import Mathlib

/-!
Shallow embedding of the task-tracker application (`src/main.rs`).

The application keeps an `AppState` with an ordered sequence of tasks
(`druid::im::Vector<Task>`, modelled as `List Task`), an optional selected
index, and the draft text of the "new task" input field.  The transient
`timer_token : Option<TimerToken>` field is runtime-only (`#[serde(skip)]`,
`#[data(ignore)]`): it never influences the store operations and is excluded
from the persisted document, so the model omits what the persistence layer
excludes.

Rust's `u64` accumulated-seconds counter is modelled as `Nat`: the only
arithmetic performed on it is `+= 1`, and no wrap-around logic exists in the
source.

The fallible operation is modelled with `Option`: `im::Vector::remove(idx)`
panics when `idx` is out of bounds, so the embedding of the
"Remove Selected Task" handler returns `none` exactly when the source
panics.
-/

namespace TaskTracker

/-- A single task: `struct Task { name: String, accumulated: u64 }`. -/
structure Task where
  name : String
  accumulated : Nat
deriving DecidableEq, Repr

/-- The persisted / UI state, without the transient timer handle:
`struct AppState { tasks, selected, new_task_name, (timer_token skipped) }`. -/
structure AppState where
  tasks : List Task
  selected : Option Nat
  new_task_name : String
deriving DecidableEq, Repr

/-- `AppState::new()`: empty task list, no selection, empty draft. -/
def AppState.new : AppState :=
  { tasks := [], selected := none, new_task_name := "" }

/-- Rust `char::is_whitespace`: the Unicode `White_Space` property. -/
def rust_is_whitespace (c : Char) : Bool :=
  let n := c.toNat
  (0x09 ≤ n && n ≤ 0x0D) || n == 0x20 || n == 0x85 || n == 0xA0 ||
  n == 0x1680 || (0x2000 ≤ n && n ≤ 0x200A) || n == 0x2028 || n == 0x2029 ||
  n == 0x202F || n == 0x205F || n == 0x3000

/-- Rust `str::trim`: strip leading and trailing whitespace characters. -/
def rust_trim (s : String) : String :=
  ⟨((s.data.dropWhile rust_is_whitespace).reverse.dropWhile
      rust_is_whitespace).reverse⟩

/-- The "Add Task" button handler (`build_ui`, lines 56-66):
if the draft's trimmed form is non-empty, push a task with the raw draft as
name and `accumulated = 0`, clear the draft, and save.  The `Bool` records
whether `save_state` was invoked. -/
def add_task (s : AppState) : AppState × Bool :=
  if ¬(rust_trim s.new_task_name).isEmpty then
    ({ tasks := s.tasks ++ [{ name := s.new_task_name, accumulated := 0 }],
       selected := s.selected,
       new_task_name := "" }, true)
  else
    (s, false)

/-- `im::Vector::remove(index)`: removes and shifts left; panics (here
`none`) when the index is out of bounds. -/
def vector_remove (l : List Task) (index : Nat) : Option (List Task) :=
  if index < l.length then some (l.eraseIdx index) else none

/-- The "Remove Selected Task" button handler (`build_ui`, lines 70-77):
if a selection exists, remove that index from the vector and clear the
selection; no-op otherwise.  `none` models the panic of
`im::Vector::remove` on an out-of-range index. -/
def remove_selected (s : AppState) : Option AppState :=
  match s.selected with
  | none => some s
  | some idx =>
    match vector_remove s.tasks idx with
    | none => none
    | some ts => some { tasks := ts, selected := none,
                        new_task_name := s.new_task_name }

/-- `tasks.iter().enumerate().find(|(_, task)| &task.name == task_name)`,
returning the index of the first task with the given name. -/
def find_task_index (task_name : String) : List Task → Option Nat
  | [] => none
  | t :: rest =>
    if t.name = task_name then some 0
    else (find_task_index task_name rest).map (· + 1)

/-- `Delegate::command` handling a `SELECT_TASK` command (lines 142-158):
select the first task whose name matches and report `Handled::Yes`;
otherwise leave the state untouched and report `Handled::No`.  The `Bool`
is `true` for handled. -/
def select_by_name (task_name : String) (s : AppState) : AppState × Bool :=
  match find_task_index task_name s.tasks with
  | some idx => ({ s with selected := some idx }, true)
  | none => (s, false)

/-- The `Event::Timer` arm of `TimerController::event` (lines 119-131):
if a selection exists, increment the selected task via `get_mut` (silently
skipping the increment when the index is out of range) and save.  The
`Bool` records whether `save_state` was invoked (it is, whenever a
selection exists, even a stale one). -/
def tick (s : AppState) : AppState × Bool :=
  match s.selected with
  | none => (s, false)
  | some idx =>
    match s.tasks[idx]? with
    | none => (s, true)
    | some t =>
      ({ s with
          tasks := s.tasks.set idx { t with accumulated := t.accumulated + 1 } },
       true)

/-- Rust's `{:02}` format specifier on an unsigned integer: decimal digits,
left-padded with `0` to a minimum width of two. -/
def pad2 (n : Nat) : String :=
  if n < 10 then "0" ++ Nat.repr n else Nat.repr n

/-- `format_time` (lines 43-48): convert seconds to `HH:MM:SS`. -/
def format_time (total_seconds : Nat) : String :=
  let hours := total_seconds / 3600
  let minutes := (total_seconds % 3600) / 60
  let seconds := total_seconds % 60
  pad2 hours ++ ":" ++ pad2 minutes ++ ":" ++ pad2 seconds

/-- The persisted document (`tasks.json`): the serde-serialized fields of
`AppState`, with the `#[serde(skip)]` timer token excluded. -/
structure SavedState where
  tasks : List Task
  selected : Option Nat
  new_task_name : String
deriving DecidableEq, Repr

/-- `save_state` (lines 162-168): serialize the persisted fields.  (The
write itself may fail; that failure is logged and ignored, and does not
change the document produced.) -/
def save_state (s : AppState) : SavedState :=
  { tasks := s.tasks, selected := s.selected,
    new_task_name := s.new_task_name }

/-- `load_state` (lines 171-178): the argument is the result of reading and
parsing `tasks.json` — `none` when the file is absent or its contents fail
to parse, in which case `AppState::new()` is returned. -/
def load_state (file : Option SavedState) : AppState :=
  match file with
  | some d => { tasks := d.tasks, selected := d.selected,
                new_task_name := d.new_task_name }
  | none => AppState.new

/-- States reachable from the fresh default state through the four store
operations (a failing `remove_selected` has no successor state). -/
inductive ReachableFromNew : AppState → Prop
  | init : ReachableFromNew AppState.new
  | add {s} : ReachableFromNew s → ReachableFromNew (add_task s).1
  | tick {s} : ReachableFromNew s → ReachableFromNew (tick s).1
  | select {s} (n : String) : ReachableFromNew s →
      ReachableFromNew (select_by_name n s).1
  | remove {s s'} : ReachableFromNew s → remove_selected s = some s' →
      ReachableFromNew s'

/-- The selection-validity invariant: a present selection is in range. -/
def SelInv (s : AppState) : Prop :=
  ∀ idx, s.selected = some idx → idx < s.tasks.length

/-! ### Helper lemmas about `find_task_index` -/

lemma find_task_index_some {task_name : String} :
    ∀ {l : List Task} {i : Nat}, find_task_index task_name l = some i →
      i < l.length ∧ l[i]?.map Task.name = some task_name ∧
        ∀ j, j < i → l[j]?.map Task.name ≠ some task_name := by
  intro l
  induction l with
  | nil => intro i h; simp [find_task_index] at h
  | cons t rest ih =>
    intro i h
    by_cases hn : t.name = task_name
    · simp only [find_task_index, if_pos hn] at h
      cases h
      exact ⟨Nat.succ_pos _, by simp [hn], fun j hj => absurd hj (Nat.not_lt_zero j)⟩
    · simp only [find_task_index, if_neg hn, Option.map_eq_some'] at h
      obtain ⟨i', hi', rfl⟩ := h
      obtain ⟨h1, h2, h3⟩ := ih hi'
      refine ⟨by simpa using h1, by simpa using h2, ?_⟩
      intro j hj
      cases j with
      | zero => simpa using hn
      | succ j' => simpa using h3 j' (by omega)

lemma find_task_index_eq_none {task_name : String} :
    ∀ {l : List Task}, find_task_index task_name l = none ↔
      ∀ t ∈ l, t.name ≠ task_name := by
  intro l
  induction l with
  | nil => simp [find_task_index]
  | cons t rest ih =>
    by_cases hn : t.name = task_name
    · simp [find_task_index, hn]
    · simp [find_task_index, hn, ih]

lemma find_task_index_isSome {task_name : String} {l : List Task}
    (h : ∃ t ∈ l, t.name = task_name) :
    ∃ i, find_task_index task_name l = some i := by
  cases hf : find_task_index task_name l with
  | some i => exact ⟨i, rfl⟩
  | none =>
    obtain ⟨t, ht, hname⟩ := h
    exact absurd hname (find_task_index_eq_none.mp hf t ht)

/-! ### Preservation of the selection-validity invariant -/

lemma selInv_new : SelInv AppState.new := by
  intro idx h
  simp [AppState.new] at h

lemma selInv_add {s : AppState} (h : SelInv s) : SelInv (add_task s).1 := by
  obtain ⟨tasks, sel, draft⟩ := s
  by_cases hg : (rust_trim draft).isEmpty
  · simpa [add_task, hg] using h
  · intro idx hidx
    simp [add_task, hg] at hidx ⊢
    have h2 : idx < tasks.length := h idx hidx
    omega

lemma selInv_tick {s : AppState} (h : SelInv s) : SelInv (tick s).1 := by
  obtain ⟨tasks, sel, draft⟩ := s
  cases sel with
  | none => exact h
  | some i =>
    cases hget : tasks[i]? with
    | none => simpa [tick, hget] using h
    | some t =>
      intro idx hidx
      simp only [tick, hget] at hidx ⊢
      cases hidx
      simp only [List.length_set]
      exact h i rfl

lemma selInv_select {s : AppState} (n : String) (h : SelInv s) :
    SelInv (select_by_name n s).1 := by
  cases hf : find_task_index n s.tasks with
  | none =>
    have he : (select_by_name n s).1 = s := by simp [select_by_name, hf]
    rw [he]; exact h
  | some i =>
    have he : (select_by_name n s).1 = { s with selected := some i } := by
      simp [select_by_name, hf]
    rw [he]
    intro idx hidx
    simp only at hidx
    cases hidx
    exact (find_task_index_some hf).1

lemma remove_some_of_selInv {s : AppState} (h : SelInv s) :
    ∃ s', remove_selected s = some s' ∧ SelInv s' := by
  obtain ⟨tasks, sel, draft⟩ := s
  cases sel with
  | none => exact ⟨_, rfl, h⟩
  | some idx =>
    have hlt : idx < tasks.length := h idx rfl
    refine ⟨⟨tasks.eraseIdx idx, none, draft⟩, ?_, ?_⟩
    · simp [remove_selected, vector_remove, hlt]
    · intro j hj
      simp at hj

lemma selInv_remove {s s' : AppState} (hr : remove_selected s = some s')
    (h : SelInv s) : SelInv s' := by
  obtain ⟨tasks, sel, draft⟩ := s
  cases sel with
  | none =>
    cases hr
    exact h
  | some idx =>
    by_cases hlt : idx < tasks.length
    · simp only [remove_selected, vector_remove, hlt, if_true] at hr
      cases hr
      intro j hj
      simp at hj
    · simp [remove_selected, vector_remove, hlt] at hr

/-! ### Digit-count bounds for the `{:02}` padding -/

lemma toDigitsCore_length_lower (b : Nat) :
    ∀ (fuel n : Nat) (ds : List Char), 0 < fuel →
      ds.length + 1 ≤ (Nat.toDigitsCore b fuel n ds).length := by
  intro fuel
  induction fuel with
  | zero => intro n ds h; omega
  | succ f ih =>
    intro n ds _
    simp only [Nat.toDigitsCore]
    by_cases hnb : n / b = 0
    · simp [hnb]
    · simp only [hnb, if_false]
      cases f with
      | zero => simp [Nat.toDigitsCore]
      | succ f' =>
        have hrec := ih (n / b) (Nat.digitChar (n % b) :: ds) (Nat.succ_pos _)
        simp only [List.length_cons] at hrec
        omega

lemma repr_length_pos (n : Nat) : 1 ≤ (Nat.repr n).length := by
  have h := toDigitsCore_length_lower 10 (n + 1) n [] (Nat.succ_pos n)
  simpa [Nat.repr, Nat.toDigits, List.length_asString] using h

lemma repr_length_two {n : Nat} (h : 10 ≤ n) : 2 ≤ (Nat.repr n).length := by
  have hdiv : ¬(n / 10 = 0) := by
    have : 1 ≤ n / 10 := (Nat.one_le_div_iff (by norm_num)).mpr h
    omega
  have hlow := toDigitsCore_length_lower 10 n (n / 10)
    [Nat.digitChar (n % 10)] (by omega)
  simp only [List.length_cons, List.length_nil] at hlow
  simp only [Nat.repr, Nat.toDigits, List.length_asString, Nat.toDigitsCore,
    hdiv, if_false]
  omega

lemma pad2_length_ge_two (n : Nat) : 2 ≤ (pad2 n).length := by
  unfold pad2
  by_cases h : n < 10
  · simp only [h, if_true, String.length_append]
    have := repr_length_pos n
    have h0 : ("0" : String).length = 1 := rfl
    omega
  · simp only [h, if_false]
    exact repr_length_two (by omega)

lemma pad2_length_eq_two {n : Nat} (h : n < 100) : (pad2 n).length = 2 := by
  have h1 := pad2_length_ge_two n
  have h2 : (pad2 n).length ≤ 2 := by
    unfold pad2
    by_cases h10 : n < 10
    · simp only [h10, if_true, String.length_append]
      have := Nat.repr_length n 1 (by norm_num) (by simpa using h10)
      have h0 : ("0" : String).length = 1 := rfl
      omega
    · simp only [h10, if_false]
      exact Nat.repr_length n 2 (by norm_num) (by simpa using h)
  omega

lemma reachable_selInv : ∀ {s : AppState}, ReachableFromNew s → SelInv s := by
  intro s h
  induction h with
  | init => exact selInv_new
  | add _ ih => exact selInv_add ih
  | tick _ ih => exact selInv_tick ih
  | select n _ ih => exact selInv_select n ih
  | remove _ hr ih => exact selInv_remove hr ih

/-! ### Claim theorems -/

/-- C1: for every state whose selection is a valid index into the task list,
`tick()` increments the selected task's accumulated time by exactly 1 and
leaves every other task (name and accumulated time) unchanged. -/
theorem tick_increments_only_selected (s : AppState) (idx : Nat)
    (hsel : s.selected = some idx) (hlt : idx < s.tasks.length) :
    (tick s).1.tasks.length = s.tasks.length ∧
    ((tick s).1.tasks)[idx]?.map Task.name = s.tasks[idx]?.map Task.name ∧
    ((tick s).1.tasks)[idx]?.map Task.accumulated =
      s.tasks[idx]?.map (fun t => t.accumulated + 1) ∧
    (∀ j, j ≠ idx → ((tick s).1.tasks)[j]? = s.tasks[j]?) ∧
    (tick s).1.selected = s.selected ∧
    (tick s).1.new_task_name = s.new_task_name := by
  obtain ⟨t, ht⟩ : ∃ t, s.tasks[idx]? = some t := by
    simp [List.getElem?_eq_getElem hlt]
  have htick : (tick s).1 =
      { s with
          tasks := s.tasks.set idx { t with accumulated := t.accumulated + 1 } } := by
    simp [tick, hsel, ht]
  rw [htick]
  refine ⟨by simp, ?_, ?_, ?_, rfl, rfl⟩
  · simp only [List.getElem?_set_self hlt, ht, Option.map_some']
  · simp only [List.getElem?_set_self hlt, ht, Option.map_some']
  · intro j hj
    simp only [List.getElem?_set_ne (Ne.symm hj)]

/-- Witness for C1 at a concrete two-task state with the second task
selected: its time becomes 3 while the first task is untouched. -/
theorem tick_increments_only_selected_witness :
    ((tick ⟨[⟨"a", 1⟩, ⟨"b", 2⟩], some 1, ""⟩).1.tasks)[1]?.map Task.accumulated =
      some 3 ∧
    ((tick ⟨[⟨"a", 1⟩, ⟨"b", 2⟩], some 1, ""⟩).1.tasks)[0]? = some ⟨"a", 1⟩ := by
  have h := tick_increments_only_selected ⟨[⟨"a", 1⟩, ⟨"b", 2⟩], some 1, ""⟩ 1
    rfl (by decide)
  exact ⟨h.2.2.1, h.2.2.2.1 0 (by decide)⟩

/-- C2 (amended): on every state reachable from the fresh default state by
the four store operations the selection, when present, is a valid index,
and `remove_selected` (the only operation that can panic) succeeds. -/
theorem store_ops_never_fail_on_reachable (s : AppState)
    (h : ReachableFromNew s) :
    SelInv s ∧ (remove_selected s).isSome = true := by
  have hinv := reachable_selInv h
  obtain ⟨s', hs', -⟩ := remove_some_of_selInv hinv
  exact ⟨hinv, by simp [hs']⟩

/-- Witness for C2 (amended) at the fresh default state. -/
theorem store_ops_never_fail_on_reachable_witness :
    SelInv AppState.new ∧ (remove_selected AppState.new).isSome = true :=
  store_ops_never_fail_on_reachable AppState.new ReachableFromNew.init

/-- C2 counterexample: a persisted document with an out-of-range selection
loads without complaint, `tick` tolerates the stale index, but
`remove_selected` on the loaded state panics (`im::Vector::remove` with an
out-of-bounds index), so it is not a total function on such states. -/
theorem remove_selected_panics_on_loaded_stale_selection :
    load_state (some ⟨[], some 0, ""⟩) = ⟨[], some 0, ""⟩ ∧
    tick ⟨[], some 0, ""⟩ = (⟨[], some 0, ""⟩, true) ∧
    remove_selected ⟨[], some 0, ""⟩ = none :=
  ⟨rfl, rfl, rfl⟩

/-- C3: for every draft whose trimmed form is non-empty, `add_task` appends
exactly one task, the new task's accumulated time is 0, and the draft is
cleared. -/
theorem add_task_appends_fresh_task (s : AppState)
    (h : rust_trim s.new_task_name ≠ "") :
    (add_task s).1.tasks =
      s.tasks ++ [{ name := s.new_task_name, accumulated := 0 }] ∧
    (add_task s).1.tasks.length = s.tasks.length + 1 ∧
    ((add_task s).1.tasks)[s.tasks.length]?.map Task.accumulated = some 0 ∧
    (add_task s).1.new_task_name = "" := by
  have hg : ¬(rust_trim s.new_task_name).isEmpty := by
    simpa [String.isEmpty_iff] using h
  refine ⟨by simp [add_task, hg], by simp [add_task, hg], ?_, by simp [add_task, hg]⟩
  simp [add_task, hg, List.getElem?_concat_length]

/-- Witness for C3 at a one-task state with draft `"hi"`. -/
theorem add_task_appends_fresh_task_witness :
    (add_task ⟨[⟨"a", 4⟩], some 0, "hi"⟩).1.tasks = [⟨"a", 4⟩, ⟨"hi", 0⟩] ∧
    (add_task ⟨[⟨"a", 4⟩], some 0, "hi"⟩).1.tasks.length = 2 ∧
    (add_task ⟨[⟨"a", 4⟩], some 0, "hi"⟩).1.new_task_name = "" := by
  have h := add_task_appends_fresh_task ⟨[⟨"a", 4⟩], some 0, "hi"⟩ (by decide)
  exact ⟨h.1, h.2.1, h.2.2.2⟩

/-- C4 (amended): `remove_selected` with no selection is a no-op; with a
selection that is a valid index it removes exactly that task (count drops
by 1) and clears the selection.  (With a selection present but out of
range it panics instead; see the counterexample.) -/
theorem remove_selected_removes_valid_selection (s : AppState) :
    (s.selected = none → remove_selected s = some s) ∧
    (∀ idx, s.selected = some idx → idx < s.tasks.length →
      remove_selected s =
        some { tasks := s.tasks.eraseIdx idx, selected := none,
               new_task_name := s.new_task_name } ∧
      (s.tasks.eraseIdx idx).length + 1 = s.tasks.length) := by
  constructor
  · intro h
    simp [remove_selected, h]
  · intro idx hsel hlt
    exact ⟨by simp [remove_selected, hsel, vector_remove, hlt],
      List.length_eraseIdx_add_one hlt⟩

/-- Witness for C4 (amended): removing the selected first of two tasks. -/
theorem remove_selected_removes_valid_selection_witness :
    remove_selected ⟨[⟨"a", 2⟩, ⟨"b", 3⟩], some 0, "d"⟩ =
      some ⟨[⟨"b", 3⟩], none, "d"⟩ :=
  ((remove_selected_removes_valid_selection
    ⟨[⟨"a", 2⟩, ⟨"b", 3⟩], some 0, "d"⟩).2 0 rfl (by decide)).1

/-- C4 counterexample: a loadable state with a selection present (index 3,
one task) on which `remove_selected` panics — the task count does not
decrease by 1 and no state with a cleared selection results. -/
theorem remove_selected_fails_on_out_of_range_selection :
    (⟨[⟨"a", 1⟩], some 3, "d"⟩ : AppState).selected = some 3 ∧
    load_state (some ⟨[⟨"a", 1⟩], some 3, "d"⟩) = ⟨[⟨"a", 1⟩], some 3, "d"⟩ ∧
    remove_selected ⟨[⟨"a", 1⟩], some 3, "d"⟩ = none :=
  ⟨rfl, rfl, rfl⟩

/-- C5: `select_by_name n` selects the index of the first task named `n`
and signals handled; when no task is named `n` the state is unchanged and
it signals unhandled. -/
theorem select_by_name_first_match (s : AppState) (n : String) :
    ((∃ t ∈ s.tasks, t.name = n) →
      ∃ idx, select_by_name n s = ({ s with selected := some idx }, true) ∧
        idx < s.tasks.length ∧ s.tasks[idx]?.map Task.name = some n ∧
        ∀ j, j < idx → s.tasks[j]?.map Task.name ≠ some n) ∧
    ((∀ t ∈ s.tasks, t.name ≠ n) → select_by_name n s = (s, false)) := by
  constructor
  · intro hex
    obtain ⟨i, hi⟩ := find_task_index_isSome hex
    obtain ⟨h1, h2, h3⟩ := find_task_index_some hi
    exact ⟨i, by simp [select_by_name, hi], h1, h2, h3⟩
  · intro hall
    have hnone : find_task_index n s.tasks = none :=
      find_task_index_eq_none.mpr hall
    simp [select_by_name, hnone]

/-- Witness for C5: selecting `"b"` among duplicates is handled (first
match), selecting an absent `"c"` is unhandled and leaves the state be. -/
theorem select_by_name_first_match_witness :
    (select_by_name "b" ⟨[⟨"a", 1⟩, ⟨"b", 2⟩, ⟨"b", 5⟩], some 0, "z"⟩).2 = true ∧
    select_by_name "c" ⟨[⟨"a", 1⟩, ⟨"b", 2⟩], some 1, "z"⟩ =
      (⟨[⟨"a", 1⟩, ⟨"b", 2⟩], some 1, "z"⟩, false) := by
  constructor
  · obtain ⟨idx, h1, -, -, -⟩ :=
      (select_by_name_first_match ⟨[⟨"a", 1⟩, ⟨"b", 2⟩, ⟨"b", 5⟩], some 0, "z"⟩
        "b").1 ⟨⟨"b", 2⟩, by simp, rfl⟩
    rw [h1]
  · exact (select_by_name_first_match ⟨[⟨"a", 1⟩, ⟨"b", 2⟩], some 1, "z"⟩ "c").2
      (by decide)

/-- C6: loading the document produced by saving any state restores the
state exactly (the transient timer handle is excluded from both the
document and the model). -/
theorem load_save_roundtrip : ∀ s : AppState, load_state (some (save_state s)) = s :=
  fun _ => rfl

/-- C7: an absent or unparseable file loads as the fresh default state:
empty task list, no selection, empty draft. -/
theorem load_absent_or_corrupt_yields_default :
    load_state none = AppState.new ∧ AppState.new.tasks = [] ∧
    AppState.new.selected = none ∧ AppState.new.new_task_name = "" :=
  ⟨rfl, rfl, rfl, rfl⟩

/-- C8: `format_time` renders `t / 3600`, `(t % 3600) / 60` and `t % 60`,
each zero-padded to at least two digits, joined by colons; in particular
the three quoted examples hold, and the minute and second fields are
always exactly two digits wide. -/
theorem format_time_spec :
    format_time 3661 = "01:01:01" ∧ format_time 59 = "00:00:59" ∧
    format_time 3600 = "01:00:00" ∧
    ∀ t : Nat,
      format_time t =
        pad2 (t / 3600) ++ ":" ++ pad2 ((t % 3600) / 60) ++ ":" ++ pad2 (t % 60) ∧
      2 ≤ (pad2 (t / 3600)).length ∧
      (pad2 ((t % 3600) / 60)).length = 2 ∧ (pad2 (t % 60)).length = 2 :=
  ⟨rfl, rfl, rfl, fun t =>
    ⟨rfl, pad2_length_ge_two _, pad2_length_eq_two (by omega),
      pad2_length_eq_two (by omega)⟩⟩

/-- C9: for every draft whose trimmed form is empty, `add_task` is a no-op:
same state (tasks, selection, draft all unchanged) and no save is
triggered (the `Bool` save flag is `false`). -/
theorem add_task_rejects_blank_draft (s : AppState)
    (h : rust_trim s.new_task_name = "") :
    add_task s = (s, false) := by
  have hg : (rust_trim s.new_task_name).isEmpty := by
    simp [String.isEmpty_iff, h]
  simp [add_task, hg]

/-- Witness for C9 at an all-whitespace draft. -/
theorem add_task_rejects_blank_draft_witness :
    add_task ⟨[⟨"a", 1⟩], none, " "⟩ = (⟨[⟨"a", 1⟩], none, " "⟩, false) :=
  add_task_rejects_blank_draft ⟨[⟨"a", 1⟩], none, " "⟩ (by decide)

/-- C10: the appended task stores the raw, untrimmed draft as its name; in
particular a task added from draft `" x "` is named `" x "`, is not found
by `select_by_name "x"`, and is found by `select_by_name " x "`. -/
theorem add_task_stores_raw_name :
    (∀ s : AppState, rust_trim s.new_task_name ≠ "" →
      ((add_task s).1.tasks)[s.tasks.length]? =
        some { name := s.new_task_name, accumulated := 0 }) ∧
    (add_task ⟨[], none, " x "⟩).1.tasks = [⟨" x ", 0⟩] ∧
    select_by_name "x" (add_task ⟨[], none, " x "⟩).1 =
      ((add_task ⟨[], none, " x "⟩).1, false) ∧
    select_by_name " x " (add_task ⟨[], none, " x "⟩).1 =
      ({ (add_task ⟨[], none, " x "⟩).1 with selected := some 0 }, true) := by
  refine ⟨?_, by decide, by decide, by decide⟩
  intro s h
  have hg : ¬(rust_trim s.new_task_name).isEmpty := by
    simpa [String.isEmpty_iff] using h
  simp [add_task, hg, List.getElem?_concat_length]

/-- Witness for C10: the raw draft `"b"` is stored at the appended index. -/
theorem add_task_stores_raw_name_witness :
    ((add_task ⟨[], none, "b"⟩).1.tasks)[0]? = some ⟨"b", 0⟩ :=
  add_task_stores_raw_name.1 ⟨[], none, "b"⟩ (by decide)

end TaskTracker
